import Mathlib

/-!
Verification development for the go-btc-peers crawler core.

The Go source is shallowly embedded: each worker loop body becomes a pure
Lean function on an explicit state record, the per-connection message
dispatcher becomes a function from a decoded message to the updated node
plus the list of discovery batches it emits, and the concurrent worker
pool is modelled as a labelled transition system whose reachable states
we prove invariants about.  Go machine integers are modelled as `Int`
(or `Nat` where the source only counts up from zero); Go slices and
channels are `List`s; `nil`-able values are `Option`s.
-/

namespace GoBtcPeers

/-- A peer endpoint, the identity key ("host:port"). -/
abbrev Endpoint := String

/-! ## Node and protocol messages (src/pkg/client/listner.go) -/

/-- The per-connection mutable node fields touched by the dispatcher:
`PingNonce` (uint64, 0 = no outstanding ping) and `PingCount`. -/
structure Node where
  pingNonce : Nat
  pingCount : Int
  deriving Repr, DecidableEq

/-- A legacy `wire.NetAddress` as used by `MsgAddr`: `a.IP.String()` and `a.Port`. -/
structure NetAddr where
  ip : String
  port : Nat
  deriving Repr, DecidableEq

/-- An addrv2 entry as used by `MsgAddrV2`: `a.Addr.String()` and `a.Port`. -/
structure NetAddrV2 where
  addr : String
  port : Nat
  deriving Repr, DecidableEq

/-- The decoded wire messages distinguished by the dispatcher's type switch. -/
inductive Msg where
  | version
  | verack
  | ping (nonce : Nat)
  | pong (nonce : Nat)
  | addr (l : List NetAddr)
  | addrv2 (l : List NetAddrV2)
  | inv (n : Nat)
  | feefilter
  | getheaders
  | other
  deriving Repr, DecidableEq

/-- `fmt.Sprintf("[%s]:%d", a.IP.String(), a.Port)` in the `MsgAddr` arm. -/
def fmtNetAddr (a : NetAddr) : Endpoint :=
  "[" ++ a.ip ++ "]:" ++ toString a.port

/-- `fmt.Sprintf("[%s]:%d", a.Addr.String(), a.Port)` in the `MsgAddrV2` arm. -/
def fmtNetAddrV2 (a : NetAddrV2) : Endpoint :=
  "[" ++ a.addr ++ "]:" ++ toString a.port

/-- The dispatcher's type switch from `connListen`: given the node state and a
decoded message, return the updated node and the discovery batches sent on
`newNodesCh` (one batch for addr/addrv2, none otherwise).  The pong arm is
`if m.Nonce == n.PingNonce { n.PingCount++; n.PingNonce = 0 } else { log }`. -/
def handleMsg (n : Node) (m : Msg) : Node × List (List Endpoint) :=
  match m with
  | .version => (n, [])
  | .verack => (n, [])
  | .ping _ => (n, [])
  | .pong nonce =>
      if nonce = n.pingNonce then
        ({ n with pingCount := n.pingCount + 1, pingNonce := 0 }, [])
      else
        (n, [])
  | .addr l => (n, [l.map fmtNetAddr])
  | .addrv2 l => (n, [l.map fmtNetAddrV2])
  | .inv _ => (n, [])
  | .feefilter => (n, [])
  | .getheaders => (n, [])
  | .other => (n, [])

/-- Outcome of one `wire.ReadMessageN` call, as `connListen` distinguishes it:
`io.EOF`, `wire.ErrUnknownMessage`, any other decode error, or a message. -/
inductive ReadResult where
  | eof
  | unknownMessage
  | otherErr
  | ok (m : Msg)
  deriving Repr, DecidableEq

/-- What one iteration of the `connListen` loop does: return (releasing the
connection) or continue with an updated node and emitted batches. -/
inductive LoopAction where
  | ret
  | cont (n : Node) (batches : List (List Endpoint))
  deriving Repr, DecidableEq

/-- One iteration of the `connListen` loop.  `connNil` is the `n.Conn == nil`
guard checked before reading; then the read outcome is dispatched:
EOF returns, `ErrUnknownMessage` logs and continues, any other read error
logs and continues, and a decoded message is handled and the loop continues. -/
def connListenIter (connNil : Bool) (n : Node) (r : ReadResult) : LoopAction :=
  if connNil then .ret
  else
    match r with
    | .eof => .ret
    | .unknownMessage => .cont n []
    | .otherErr => .cont n []
    | .ok m =>
        let (n', bs) := handleMsg n m
        .cont n' bs

/-! ## Client worker loops (src/unnamed/part_001, package client) -/

/-- The client fields read or written by the worker loops:
`nodesNew` (discovery queue slice), `queueCh` (bounded work-queue channel,
modelled by its buffered contents), `nodeResCh` (result channel contents),
`nodesGood` (good-node slice), `nodesDeadCnt` (plain int counter),
`activeConns` (int32 updated via `atomic`), and `nodes` (the full map,
only its size is read by the stats worker). -/
structure ClientState where
  nodes : List Endpoint
  nodesNew : List Endpoint
  queueCh : List Endpoint
  nodeResCh : List Endpoint
  nodesGood : List Endpoint
  nodesDeadCnt : Nat
  activeConns : Int
  deriving Repr, DecidableEq

/-- Modelled from the spec: `Node.Connect` (its definition is not under src/;
only its call site in `wNodesConnector` is).  Per §4.3, handshake success
classifies the node Good and reports it to the Result Aggregator over the
dedicated channel; any failure returns an error and reports nothing on the
channel.  `ok` is the nondeterministic connection outcome; the returned
`Bool` is `err == nil`. -/
def nodeConnect (n : Endpoint) (ok : Bool) (resCh : List Endpoint) :
    List Endpoint × Bool :=
  (if ok then resCh ++ [n] else resCh, ok)

/-- Body of one `wNodesConnector` loop iteration after receiving node `n` from
`queueCh`: `atomic.AddInt32(&c.activeConns, 1)`; `err := n.Connect(...)`;
`if err != nil { c.nodesDeadCnt++ }`; `atomic.AddInt32(&c.activeConns, -1)`. -/
def connectorIter (s : ClientState) (n : Endpoint) (ok : Bool) : ClientState :=
  let s := { s with activeConns := s.activeConns + 1 }
  let (resCh, ok) := nodeConnect n ok s.nodeResCh
  let s := { s with nodeResCh := resCh }
  let s := if ok then s else { s with nodesDeadCnt := s.nodesDeadCnt + 1 }
  { s with activeConns := s.activeConns - 1 }

/-- Body of one `wNodeResultsHandler` loop iteration after receiving node `n`
from `nodeResCh`: `c.nodesGood = append(c.nodesGood, n)`. -/
def resultsIter (s : ClientState) (n : Endpoint) : ClientState :=
  { s with nodesGood := s.nodesGood ++ [n] }

/-- The result handler consuming a sequence of outcomes from the channel,
one `resultsIter` per received node. -/
def processResults (s : ClientState) (ns : List Endpoint) : ClientState :=
  ns.foldl resultsIter s

/-! ## The queue feeder as a transition system (wNodesFeeder) -/

/-- Control location of the feeder loop: at the top of the `for`/`select`,
blocked (or about to block) on `c.queueCh <- n` holding the popped node `n`,
or returned. -/
inductive FeederPC where
  | top
  | sending (n : Endpoint)
  | exited
  deriving Repr, DecidableEq

/-- State of `wNodesFeeder` together with the queues it touches.  `cancelled`
models `c.ctx.Done()` being closed; `queueCap` is the work-queue buffer
capacity (the connection limit). -/
structure FeederState where
  nodesNew : List Endpoint
  queueCh : List Endpoint
  queueCap : Nat
  cancelled : Bool
  pc : FeederPC
  deriving Repr, DecidableEq

/-- One step of the feeder alone (no consumer draining `queueCh`), faithful to
`wNodesFeeder`: at the loop top a closed `ctx.Done()` wins the select and the
feeder returns; otherwise the `default` branch sleeps when `nodesNew` is empty
or pops the head and moves to the send; the send `c.queueCh <- n` completes
only when the buffer has room and checks no cancellation — when the buffer is
full the feeder is blocked (`none`). -/
def feederStep (s : FeederState) : Option FeederState :=
  match s.pc with
  | .exited => none
  | .top =>
      if s.cancelled then some { s with pc := .exited }
      else
        match s.nodesNew with
        | [] => some s
        | n :: rest => some { s with nodesNew := rest, pc := .sending n }
  | .sending n =>
      if s.queueCh.length < s.queueCap then
        some { s with queueCh := s.queueCh ++ [n], pc := .top }
      else
        none

/-! ## The connector worker pool as a transition system (wNodesConnector × N) -/

/-- Fine-grained control location of one `wNodesConnector` worker: idle at the
select, holding a node received from `queueCh` but not yet counted,
inside `n.Connect` after `atomic.AddInt32(&c.activeConns, 1)`, returned from
`Connect` (with its outcome) but not yet decremented, or exited. -/
inductive WPhase where
  | idle
  | received (n : Endpoint)
  | connecting (n : Endpoint)
  | done (n : Endpoint) (failed : Bool)
  | exited
  deriving Repr, DecidableEq

/-- A worker holds an active connection slot exactly between the increment and
the decrement of `activeConns`. -/
def WPhase.isBusy : WPhase → Bool
  | .connecting _ => true
  | .done _ _ => true
  | _ => false

/-- Shared state of the pool of connector workers. -/
structure PoolState where
  workers : List WPhase
  activeConns : Int
  queueCh : List Endpoint
  nodeResCh : List Endpoint
  nodesDeadCnt : Nat
  cancelled : Bool
  deriving Repr, DecidableEq

/-- The pool at startup: `connection limit` many workers, all idle, counter 0. -/
def initPool (w : Nat) : PoolState :=
  { workers := List.replicate w .idle
    activeConns := 0
    queueCh := []
    nodeResCh := []
    nodesDeadCnt := 0
    cancelled := false }

/-- Interleaved small steps of the connector pool and its environment.
`enqueue` is the feeder delivering to the bounded work queue and `consume` the
result handler draining `nodeResCh`; `cancel` closes the shared context.
`recv`/`inc`/`connectOk`/`connectErr`/`dec` are the successive effects of one
`wNodesConnector` iteration; `dec` performs both the conditional
`c.nodesDeadCnt++` and the unconditional `atomic.AddInt32(&c.activeConns, -1)`
executed on every exit path of `Connect`; `exit` is the `ctx.Done()` select arm. -/
inductive PoolStep : PoolState → PoolState → Prop where
  | enqueue (s : PoolState) (n : Endpoint) :
      PoolStep s { s with queueCh := s.queueCh ++ [n] }
  | consume (s : PoolState) (n : Endpoint) (rest : List Endpoint)
      (hr : s.nodeResCh = n :: rest) :
      PoolStep s { s with nodeResCh := rest }
  | cancel (s : PoolState) :
      PoolStep s { s with cancelled := true }
  | recv (s : PoolState) (i : Nat) (n : Endpoint) (rest : List Endpoint)
      (hw : s.workers[i]? = some .idle) (hq : s.queueCh = n :: rest) :
      PoolStep s { s with workers := s.workers.set i (.received n), queueCh := rest }
  | inc (s : PoolState) (i : Nat) (n : Endpoint)
      (hw : s.workers[i]? = some (.received n)) :
      PoolStep s { s with workers := s.workers.set i (.connecting n),
                          activeConns := s.activeConns + 1 }
  | connectOk (s : PoolState) (i : Nat) (n : Endpoint)
      (hw : s.workers[i]? = some (.connecting n)) :
      PoolStep s { s with workers := s.workers.set i (.done n false),
                          nodeResCh := s.nodeResCh ++ [n] }
  | connectErr (s : PoolState) (i : Nat) (n : Endpoint)
      (hw : s.workers[i]? = some (.connecting n)) :
      PoolStep s { s with workers := s.workers.set i (.done n true) }
  | dec (s : PoolState) (i : Nat) (n : Endpoint) (failed : Bool)
      (hw : s.workers[i]? = some (.done n failed)) :
      PoolStep s { s with workers := s.workers.set i .idle,
                          activeConns := s.activeConns - 1,
                          nodesDeadCnt := s.nodesDeadCnt + (if failed then 1 else 0) }
  | exit (s : PoolState) (i : Nat)
      (hw : s.workers[i]? = some .idle) (hc : s.cancelled = true) :
      PoolStep s { s with workers := s.workers.set i .exited }

/-- States reachable from the initial pool of `w` workers. -/
inductive PoolReachable (w : Nat) : PoolState → Prop where
  | init : PoolReachable w (initPool w)
  | step {s t : PoolState} : PoolReachable w s → PoolStep s t → PoolReachable w t

/-! ## The node registry (AddNodes, called from wNewAddrListner) -/

/-- Lifecycle state of a registry node (spec §3). -/
inductive NState where
  | Discovered
  | Queued
  | Connecting
  | Good
  | Dead
  deriving Repr, DecidableEq

/-- The registry's deduplicated universe: `AllNodes` as an association list
keyed by endpoint, plus the ordered `DiscoveryQueue`. -/
structure Registry where
  allNodes : List (Endpoint × NState)
  discoveryQueue : List Endpoint
  deriving Repr, DecidableEq

/-- The endpoints present in `AllNodes`. -/
def Registry.keys (r : Registry) : List Endpoint :=
  r.allNodes.map Prod.fst

/-- Modelled from the spec: `Client.AddNodes` / `AddDiscovered` (its definition
is not under src/; only its call site in `wNewAddrListner` is).  Per §4.1: for
each endpoint of the batch not already present in `AllNodes`, create a Node in
state Discovered, insert it into `AllNodes` and append the endpoint to
`DiscoveryQueue`; already-known endpoints (in any state) are silently
ignored — no re-queueing, no error. -/
def addDiscovered (r : Registry) (batch : List Endpoint) : Registry :=
  batch.foldl
    (fun r ip =>
      if ip ∈ r.keys then r
      else { allNodes := r.allNodes ++ [(ip, .Discovered)]
             discoveryQueue := r.discoveryQueue ++ [ip] })
    r

/-- A sequence of discovery batches submitted to the registry in order. -/
def addBatches (r : Registry) (batches : List (List Endpoint)) : Registry :=
  batches.foldl addDiscovered r

/-! ## GUI data model (src/unnamed/part_000, package gui)

Chart values are `float64(someGoInt)` in the source; the conversion is exact
for the integer counts involved, so chart elements are modelled as `Int`. -/

def lenLogs : Nat := 20
def lenConnChart : Nat := 14
def lenNodesChart : Nat := 32

/-- The snapshot record sent from the client to the GUI (all Go `int`). -/
structure IncomingData where
  connections : Int
  nodesTotal : Int
  nodesGood : Int
  nodesDead : Int
  nodesQueued : Int
  msgIn : Int
  msgOut : Int
  deriving Repr, DecidableEq

/-- The back-to-front copy loop shared by `queue.add` and `updateDataList`:
`for e := l.Back(); e != nil; e = e.Prev()` writing `mirror[limit-1-i] = e`,
breaking once `i >= limit` or the index falls outside `mirror`.  The list is
passed already reversed (back first). -/
def copyBackLoop (limit : Nat) : List Int → Nat → List Int → List Int
  | [], _, mirror => mirror
  | e :: rest, i, mirror =>
      if limit ≤ i then mirror
      else if mirror.length ≤ limit - 1 - i then mirror
      else copyBackLoop limit rest (i + 1) (mirror.set (limit - 1 - i) e)

/-- Same loop writing `queueData` boxes (`some e`) into the queue's
preallocated `data` array. -/
def qCopyBackLoop (size : Nat) : List Int → Nat → List (Option Int) → List (Option Int)
  | [], _, data => data
  | e :: rest, i, data =>
      if size ≤ i then data
      else if data.length ≤ size - 1 - i then data
      else qCopyBackLoop size rest (i + 1) (data.set (size - 1 - i) (some e))

/-- The custom FIFO `queue` of package gui: a linked list bounded by `size`,
a preallocated `data` box array (`none` = the zero `queueData`), and the lazily
allocated flat copy. -/
structure Queue where
  list : List Int
  size : Nat
  data : List (Option Int)
  dataFlatFloat : Option (List Int)
  deriving Repr, DecidableEq

/-- `NewQueue(size)`: empty list, preallocated `data` of `size` zero boxes,
`dataFlatFloat` still nil. -/
def NewQueue (size : Nat) : Queue :=
  { list := [], size := size, data := List.replicate size none, dataFlatFloat := none }

/-- `queue.add`: push back, drop the front when the list exceeds `size`, then
copy the list back-to-front into the `data` array. -/
def Queue.add (q : Queue) (v : Int) : Queue :=
  let l := q.list ++ [v]
  let l := if q.size < l.length then l.tail else l
  { q with list := l, data := qCopyBackLoop q.size l.reverse 0 q.data }

/-- The copy loop of `queue.AddFloat`: `for i, v := range q.data`, returning at
the first nil box, otherwise `q.dataFlatFloat[i] = v.data.(float64)`. -/
def qFlatLoop : List (Option Int) → Nat → List Int → List Int
  | [], _, flat => flat
  | none :: _, _, flat => flat
  | some x :: rest, i, flat => qFlatLoop rest (i + 1) (flat.set i x)

/-- `queue.AddFloat`: `add`, allocate the flat array on first use, then copy
the box array into it, stopping at the first nil box. -/
def Queue.addFloat (q : Queue) (v : Int) : Queue :=
  let q := q.add v
  let flat := q.dataFlatFloat.getD (List.replicate q.size 0)
  { q with dataFlatFloat := some (qFlatLoop q.data 0 flat) }

/-- `updateDataList` instantiated at `float64` (the only instantiation the
claims touch): return unchanged when the value is zero, else push back, drop
the front beyond `limit`, and refresh the mirror slice back-to-front. -/
def updateDataListF (l : List Int) (val : Int) (mirror : List Int) (limit : Nat) :
    List Int × List Int :=
  if val = 0 then (l, mirror)
  else
    let l := l ++ [val]
    let l := if limit < l.length then l.tail else l
    (l, copyBackLoop limit l.reverse 0 mirror)

/-- The GUI fields `Update` touches: the info table cells and, per metric, the
linked list plus its mirror slice (the total-nodes chart uses the custom
queue instead). -/
structure GUI where
  maxConnections : Nat
  infoNodesGood : Int
  infoNodesDead : Int
  infoNodesQueued : Int
  infoConnections : Int
  infoMsgIn : Int
  infoMsgOut : Int
  dataConnectionsList : List Int
  dataConnections : List Int
  dataNodesQueuedList : List Int
  dataNodesGoodList : List Int
  dataNodesDeadList : List Int
  dataNodesTotal : Queue
  dataNodesQueued : List Int
  dataNodesGood : List Int
  dataNodesDead : List Int
  logs : List String
  deriving Repr, DecidableEq

/-- `gui.New()` with the given connection limit: empty lists, zeroed mirror
slices of the chart lengths, a fresh total-nodes queue of `lenNodesChart`. -/
def GUI.new (maxConnections : Nat) : GUI :=
  { maxConnections := maxConnections
    infoNodesGood := 0, infoNodesDead := 0, infoNodesQueued := 0
    infoConnections := 0, infoMsgIn := 0, infoMsgOut := 0
    dataConnectionsList := [], dataConnections := List.replicate lenConnChart 0
    dataNodesQueuedList := [], dataNodesGoodList := [], dataNodesDeadList := []
    dataNodesTotal := NewQueue lenNodesChart
    dataNodesQueued := List.replicate lenNodesChart 0
    dataNodesGood := List.replicate lenNodesChart 0
    dataNodesDead := List.replicate lenNodesChart 0
    logs := List.replicate lenLogs "" }

/-- `GUI.Update`: under the package mutex, for each incoming field strictly
greater than zero record it (set the info cell; push onto the chart's linked
list and refresh its mirror; `AddFloat` for the total-nodes queue); fields
that are zero or negative are skipped. -/
def GUI.update (g : GUI) (d : IncomingData) : GUI :=
  let g :=
    if 0 < d.connections then
      let lm := updateDataListF g.dataConnectionsList d.connections
        g.dataConnections lenConnChart
      { g with infoConnections := d.connections,
               dataConnectionsList := lm.1, dataConnections := lm.2 }
    else g
  let g :=
    if 0 < d.nodesTotal then
      { g with dataNodesTotal := g.dataNodesTotal.addFloat d.nodesTotal }
    else g
  let g :=
    if 0 < d.nodesQueued then
      let lm := updateDataListF g.dataNodesQueuedList d.nodesQueued
        g.dataNodesQueued lenNodesChart
      { g with infoNodesQueued := d.nodesQueued,
               dataNodesQueuedList := lm.1, dataNodesQueued := lm.2 }
    else g
  let g :=
    if 0 < d.nodesGood then
      let lm := updateDataListF g.dataNodesGoodList d.nodesGood
        g.dataNodesGood lenNodesChart
      { g with infoNodesGood := d.nodesGood,
               dataNodesGoodList := lm.1, dataNodesGood := lm.2 }
    else g
  let g :=
    if 0 < d.nodesDead then
      let lm := updateDataListF g.dataNodesDeadList d.nodesDead
        g.dataNodesDead lenNodesChart
      { g with infoNodesDead := d.nodesDead,
               dataNodesDeadList := lm.1, dataNodesDead := lm.2 }
    else g
  let g := if 0 < d.msgIn then { g with infoMsgIn := d.msgIn } else g
  let g := if 0 < d.msgOut then { g with infoMsgOut := d.msgOut } else g
  g

/-! ## The stats / snapshot worker (wGuiUpdater) -/

/-- The configuration fields the stats worker reads. -/
structure Cfg where
  dataDir : String
  nodesFilename : String
  connectionsLimit : Nat
  deriving Repr, DecidableEq

/-- `filepath.Join(cfg.DataDir, cfg.NodesFilename)`. -/
def filepathJoin (a b : String) : String := a ++ "/" ++ b

/-- Observable effects of one tick of `wGuiUpdater`: the snapshot sent on
`guiCh`, the `storage.Save` calls made (path and the list passed), whether a
save error was logged, and whether the loop goes on to the next iteration. -/
structure TickOut where
  guiMsg : IncomingData
  saveCalls : List (String × List Endpoint)
  errLogged : Bool
  continues : Bool
  deriving Repr, DecidableEq

/-- Body of one `ticker.C` arm of `wGuiUpdater`: assemble the snapshot from
the current client fields and send it on `guiCh`; then, when `nodesGood` is
non-empty, call `storage.Save(filepath.Join(DataDir, NodesFilename), nodesGood)`;
a save error is logged and the loop `continue`s; in every case the loop keeps
running.  `saveErr` is the outcome of the external save call. -/
def guiTick (cfg : Cfg) (s : ClientState) (saveErr : Bool) : TickOut :=
  let d : IncomingData :=
    { connections := s.activeConns
      nodesTotal := s.nodes.length
      nodesQueued := s.nodesNew.length
      nodesGood := s.nodesGood.length
      nodesDead := s.nodesDeadCnt
      msgIn := 0, msgOut := 0 }
  let path := filepathJoin cfg.dataDir cfg.nodesFilename
  if 0 < s.nodesGood.length then
    { guiMsg := d
      saveCalls := [(path, s.nodesGood)]
      errLogged := saveErr
      continues := true }
  else
    { guiMsg := d, saveCalls := [], errLogged := false, continues := true }

/-! ## Theorems -/

lemma processResults_nodesGood (s : ClientState) (ns : List Endpoint) :
    (processResults s ns).nodesGood = s.nodesGood ++ ns := by
  induction ns generalizing s with
  | nil => simp [processResults]
  | cons a t ih =>
      show (processResults (resultsIter s a) t).nodesGood = _
      rw [ih]
      simp [resultsIter]

/-- C3: for every incoming pong, a nonce equal to the node's outstanding
`PingNonce` makes the dispatcher increment `PingCount` by exactly one and set
`PingNonce` to 0; a differing nonce leaves both fields unchanged (and emits no
batch either way). -/
theorem pong_nonce_dispatch (n : Node) (nonce : Nat) :
    (nonce = n.pingNonce →
      handleMsg n (.pong nonce) =
        ({ n with pingCount := n.pingCount + 1, pingNonce := 0 }, [])) ∧
    (nonce ≠ n.pingNonce → handleMsg n (.pong nonce) = (n, [])) := by
  constructor <;> intro h <;> simp [handleMsg, h]

/-- C3 witness: a matching pong on a node with outstanding nonce 7 and count 2
yields count 3 and nonce 0; a mismatched pong leaves the node unchanged. -/
theorem pong_nonce_dispatch_witness :
    handleMsg ⟨7, 2⟩ (.pong 7) = (⟨0, 3⟩, []) ∧
    handleMsg ⟨7, 2⟩ (.pong 5) = (⟨7, 2⟩, []) :=
  ⟨(pong_nonce_dispatch ⟨7, 2⟩ 7).1 rfl,
   (pong_nonce_dispatch ⟨7, 2⟩ 5).2 (by decide)⟩

/-- C4: for every read outcome of the dispatcher loop (with the connection
still set), an unknown-message condition continues the loop, any other decode
error continues the loop, and the loop returns only on end-of-stream. -/
theorem dispatcher_error_recovery (n : Node) :
    connListenIter false n .eof = .ret ∧
    connListenIter false n .unknownMessage = .cont n [] ∧
    connListenIter false n .otherErr = .cont n [] ∧
    (∀ r : ReadResult, connListenIter false n r = .ret → r = .eof) := by
  refine ⟨rfl, rfl, rfl, ?_⟩
  intro r h
  cases r with
  | eof => rfl
  | unknownMessage => simp [connListenIter] at h
  | otherErr => simp [connListenIter] at h
  | ok m => simp [connListenIter] at h

/-- C4 witness: on a fresh node, an unknown message continues the loop and the
only returning read outcome is EOF. -/
theorem dispatcher_error_recovery_witness :
    connListenIter false ⟨0, 0⟩ .unknownMessage = .cont ⟨0, 0⟩ [] ∧
    ReadResult.eof = .eof :=
  ⟨(dispatcher_error_recovery ⟨0, 0⟩).2.1,
   (dispatcher_error_recovery ⟨0, 0⟩).2.2.2 .eof rfl⟩

/-- C5: an addr or addrv2 message announcing k endpoints makes the dispatcher
emit exactly one discovery batch, of length k, containing the formatted
endpoints, and leaves the node (hence any classification) unchanged. -/
theorem addr_batch_submission (n : Node) (l : List NetAddr) (l2 : List NetAddrV2) :
    handleMsg n (.addr l) = (n, [l.map fmtNetAddr]) ∧
    (l.map fmtNetAddr).length = l.length ∧
    handleMsg n (.addrv2 l2) = (n, [l2.map fmtNetAddrV2]) ∧
    (l2.map fmtNetAddrV2).length = l2.length := by
  refine ⟨rfl, ?_, rfl, ?_⟩ <;> simp

/-- An empty client state, used as a concrete counterexample input. -/
def cs0 : ClientState :=
  { nodes := [], nodesNew := [], queueCh := [], nodeResCh := []
    nodesGood := [], nodesDeadCnt := 0, activeConns := 0 }

/-- C1 counterexample: the connector worker's own loop body writes the dead
count — on a failed connection it increments `nodesDeadCnt` directly, so the
dead count is not only written by the aggregator consuming the channel. -/
theorem worker_writes_dead_count :
    (connectorIter cs0 "peer" false).nodesDeadCnt ≠ cs0.nodesDeadCnt := by
  decide

/-- C1 amended: Good outcomes are routed through the dedicated result channel
and only the result-handler (aggregator) loop appends to the good-node list —
the worker body never writes `nodesGood`; Dead outcomes, however, are not
routed: the worker increments the shared `nodesDeadCnt` directly on failure. -/
theorem outcome_routing_amended (s : ClientState) (n : Endpoint) :
    (connectorIter s n true).nodesGood = s.nodesGood ∧
    (connectorIter s n false).nodesGood = s.nodesGood ∧
    (connectorIter s n true).nodeResCh = s.nodeResCh ++ [n] ∧
    (connectorIter s n false).nodeResCh = s.nodeResCh ∧
    (connectorIter s n true).nodesDeadCnt = s.nodesDeadCnt ∧
    (connectorIter s n false).nodesDeadCnt = s.nodesDeadCnt + 1 ∧
    (resultsIter s n).nodesGood = s.nodesGood ++ [n] := by
  simp [connectorIter, nodeConnect, resultsIter]

/-- C10: the result handler appends every received outcome unconditionally,
with no deduplication: after n received outcomes the good-node list is the old
list with the n outcomes appended, its length grows by exactly n, and an
endpoint reported twice appears twice (counts add). -/
theorem results_no_dedup (s : ClientState) (ns : List Endpoint) :
    (processResults s ns).nodesGood = s.nodesGood ++ ns ∧
    (processResults s ns).nodesGood.length = s.nodesGood.length + ns.length ∧
    ∀ e : Endpoint, (processResults s ns).nodesGood.count e =
      s.nodesGood.count e + ns.count e := by
  refine ⟨processResults_nodesGood s ns, ?_, ?_⟩ <;>
    simp [processResults_nodesGood]

/-- The feeder blocked on `c.queueCh <- "n1"` with the buffer full (capacity 1
already holding "n0") after cancellation has fired. -/
def stuckFeeder : FeederState :=
  { nodesNew := [], queueCh := ["n0"], queueCap := 1
    cancelled := true, pc := .sending "n1" }

/-- C6 (code defect evidence): with cancellation already fired, the feeder
blocked sending its popped in-flight item to a full work queue can take no
step at all — the bare channel send checks no cancellation, so the feeder
neither exits nor delivers, and the popped item sits in neither `nodesNew` nor
`queueCh`; cancellation is observed only at the top of the loop, where the
feeder does exit in one step. -/
theorem feeder_blocked_send_ignores_cancellation :
    stuckFeeder.cancelled = true ∧
    stuckFeeder.pc = .sending "n1" ∧
    feederStep stuckFeeder = none ∧
    stuckFeeder.pc ≠ .exited ∧
    "n1" ∉ stuckFeeder.nodesNew ∧ "n1" ∉ stuckFeeder.queueCh ∧
    feederStep { stuckFeeder with pc := .top } =
      some { stuckFeeder with pc := .exited } := by
  decide

/-- C8: on every tick of the stats worker, the external save is called if and
only if the good-node list is non-empty, and then exactly once, with the
configured path and the current complete good-node list; the loop continues
regardless of a save error; the emitted snapshot carries the current counts. -/
theorem snapshot_save_iff_nonempty (cfg : Cfg) (s : ClientState) (saveErr : Bool) :
    (guiTick cfg s saveErr).saveCalls =
      (if s.nodesGood.isEmpty then []
       else [(filepathJoin cfg.dataDir cfg.nodesFilename, s.nodesGood)]) ∧
    (guiTick cfg s saveErr).continues = true ∧
    (guiTick cfg s saveErr).guiMsg =
      { connections := s.activeConns, nodesTotal := s.nodes.length
        nodesQueued := s.nodesNew.length, nodesGood := s.nodesGood.length
        nodesDead := s.nodesDeadCnt, msgIn := 0, msgOut := 0 } := by
  rcases hg : s.nodesGood with _ | ⟨a, t⟩ <;> simp [guiTick, hg]

/-! ### The active-connection counter invariant (C2) -/

/-- Number of workers currently holding an active-connection slot. -/
def busyCount (ws : List WPhase) : Nat := ws.countP (·.isBusy)

lemma busyCount_set (ws : List WPhase) (i : Nat) (a ph : WPhase)
    (h : ws[i]? = some a) :
    busyCount (ws.set i ph) =
      busyCount ws - (if a.isBusy then 1 else 0) + (if ph.isBusy then 1 else 0) := by
  obtain ⟨hlt, hget⟩ := List.getElem?_eq_some.mp h
  unfold busyCount
  rw [List.countP_set _ _ _ _ hlt, hget]

lemma busyCount_pos (ws : List WPhase) (i : Nat) (a : WPhase)
    (h : ws[i]? = some a) (hb : a.isBusy = true) : 1 ≤ busyCount ws := by
  obtain ⟨hlt, hget⟩ := List.getElem?_eq_some.mp h
  have hmem : a ∈ ws := by rw [← hget]; exact List.getElem_mem hlt
  exact List.countP_pos_iff.mpr ⟨a, hmem, hb⟩

lemma pool_inv {w : Nat} {s : PoolState} (h : PoolReachable w s) :
    s.workers.length = w ∧ s.activeConns = (busyCount s.workers : Int) := by
  induction h with
  | init =>
      refine ⟨by simp [initPool], ?_⟩
      have hz : busyCount (List.replicate w WPhase.idle) = 0 := by
        rw [busyCount, List.countP_eq_zero]
        intro a ha
        rw [List.eq_of_mem_replicate ha]
        simp [WPhase.isBusy]
      simp [initPool, hz]
  | step hr hs ih =>
      rename_i s t
      obtain ⟨hlen, hcnt⟩ := ih
      cases hs with
      | enqueue n => exact ⟨hlen, hcnt⟩
      | consume n rest hres => exact ⟨hlen, hcnt⟩
      | cancel => exact ⟨hlen, hcnt⟩
      | recv i n rest hw hq =>
          refine ⟨by simpa using hlen, ?_⟩
          have hb := busyCount_set s.workers i _ (.received n) hw
          simp [WPhase.isBusy] at hb
          show s.activeConns = (busyCount (s.workers.set i (.received n)) : Int)
          rw [hb]
          simpa using hcnt
      | inc i n hw =>
          refine ⟨by simpa using hlen, ?_⟩
          have hb := busyCount_set s.workers i _ (.connecting n) hw
          simp [WPhase.isBusy] at hb
          show s.activeConns + 1 = (busyCount (s.workers.set i (.connecting n)) : Int)
          rw [hb]
          omega
      | connectOk i n hw =>
          refine ⟨by simpa using hlen, ?_⟩
          have hb := busyCount_set s.workers i _ (.done n false) hw
          have hpos := busyCount_pos s.workers i _ hw rfl
          simp [WPhase.isBusy] at hb
          show s.activeConns = (busyCount (s.workers.set i (.done n false)) : Int)
          rw [hb]
          omega
      | connectErr i n hw =>
          refine ⟨by simpa using hlen, ?_⟩
          have hb := busyCount_set s.workers i _ (.done n true) hw
          have hpos := busyCount_pos s.workers i _ hw rfl
          simp [WPhase.isBusy] at hb
          show s.activeConns = (busyCount (s.workers.set i (.done n true)) : Int)
          rw [hb]
          omega
      | dec i n failed hw =>
          refine ⟨by simpa using hlen, ?_⟩
          have hb := busyCount_set s.workers i _ .idle hw
          have hpos := busyCount_pos s.workers i _ hw rfl
          simp [WPhase.isBusy] at hb
          show s.activeConns - 1 = (busyCount (s.workers.set i .idle) : Int)
          rw [hb]
          omega
      | exit i hw hc =>
          refine ⟨by simpa using hlen, ?_⟩
          have hb := busyCount_set s.workers i _ .exited hw
          simp [WPhase.isBusy] at hb
          show s.activeConns = (busyCount (s.workers.set i .exited) : Int)
          rw [hb]
          simpa using hcnt

/-- C2: in every reachable state of the connector pool with `w` workers, the
active-connection counter is at least 0 and at most `w` (the configured
connection limit): each worker increments it before dialling one endpoint and
decrements it unconditionally on every exit path, and holds at most one slot. -/
theorem active_conns_bounded {w : Nat} {s : PoolState} (h : PoolReachable w s) :
    0 ≤ s.activeConns ∧ s.activeConns ≤ (w : Int) := by
  obtain ⟨hlen, hcnt⟩ := pool_inv h
  have hle : busyCount s.workers ≤ s.workers.length := List.countP_le_length _
  rw [hlen] at hle
  omega

/-- C2 witness: the initial pool of 2 workers is reachable and its counter
lies in [0, 2]. -/
theorem active_conns_bounded_witness :
    0 ≤ (initPool 2).activeConns ∧ (initPool 2).activeConns ≤ (2 : Int) :=
  active_conns_bounded PoolReachable.init

/-! ### Registry deduplication (C7) -/

lemma addDiscovered_nil (r : Registry) : addDiscovered r [] = r := rfl

lemma addDiscovered_cons (r : Registry) (ip : Endpoint) (t : List Endpoint) :
    addDiscovered r (ip :: t) =
      addDiscovered
        (if ip ∈ r.keys then r
         else { allNodes := r.allNodes ++ [(ip, .Discovered)]
                discoveryQueue := r.discoveryQueue ++ [ip] }) t := rfl

lemma keys_append_one (r : Registry) (ip : Endpoint) (st : NState)
    (dq : List Endpoint) :
    (Registry.mk (r.allNodes ++ [(ip, st)]) dq).keys = r.keys ++ [ip] := by
  simp [Registry.keys]

lemma keys_toFinset_addDiscovered (r : Registry) (b : List Endpoint) :
    (addDiscovered r b).keys.toFinset = r.keys.toFinset ∪ b.toFinset := by
  induction b generalizing r with
  | nil => simp [addDiscovered_nil]
  | cons ip t ih =>
      rw [addDiscovered_cons]
      by_cases h : ip ∈ r.keys
      · rw [if_pos h, ih]
        ext x
        simp only [Finset.mem_union, List.mem_toFinset, List.mem_cons]
        constructor
        · tauto
        · rintro (hx | hx | hx) <;> first | (subst hx; exact Or.inl h) | tauto
      · rw [if_neg h, ih, keys_append_one]
        ext x
        simp only [Finset.mem_union, List.mem_toFinset, List.mem_append,
          List.mem_cons, List.mem_singleton]
        tauto

lemma keys_nodup_addDiscovered (r : Registry) (b : List Endpoint)
    (h : r.keys.Nodup) : (addDiscovered r b).keys.Nodup := by
  induction b generalizing r with
  | nil => simpa [addDiscovered_nil]
  | cons ip t ih =>
      rw [addDiscovered_cons]
      by_cases hm : ip ∈ r.keys
      · rw [if_pos hm]; exact ih r h
      · rw [if_neg hm]
        refine ih _ ?_
        rw [keys_append_one]
        simp only [List.nodup_append, List.nodup_cons, List.not_mem_nil,
          not_false_iff, List.nodup_nil, and_true, true_and, List.disjoint_singleton]
        exact ⟨h, hm⟩

lemma allNodes_length_eq_keys_length (r : Registry) :
    r.allNodes.length = r.keys.length := by
  simp [Registry.keys]

lemma keys_toFinset_addBatches (r : Registry) (bs : List (List Endpoint)) :
    (addBatches r bs).keys.toFinset = r.keys.toFinset ∪ bs.flatten.toFinset := by
  induction bs generalizing r with
  | nil => simp [addBatches]
  | cons b t ih =>
      show (addBatches (addDiscovered r b) t).keys.toFinset = _
      rw [ih, keys_toFinset_addDiscovered]
      simp [Finset.union_assoc]

lemma keys_nodup_addBatches (r : Registry) (bs : List (List Endpoint))
    (h : r.keys.Nodup) : (addBatches r bs).keys.Nodup := by
  induction bs generalizing r with
  | nil => simpa [addBatches]
  | cons b t ih =>
      show (addBatches (addDiscovered r b) t).keys.Nodup
      exact ih _ (keys_nodup_addDiscovered r b h)

/-- C7: for any sequence of discovery batches with arbitrary duplicates within
and across batches, the registry's node count grows by exactly the number of
distinct endpoints not already known; duplicates and already-known endpoints
are silently ignored. -/
theorem registry_dedup_count (r : Registry) (batches : List (List Endpoint))
    (hnd : r.keys.Nodup) :
    (addBatches r batches).allNodes.length =
      r.allNodes.length + (batches.flatten.toFinset \ r.keys.toFinset).card := by
  have h1 := keys_toFinset_addBatches r batches
  have h2 : (addBatches r batches).keys.Nodup := keys_nodup_addBatches r batches hnd
  rw [allNodes_length_eq_keys_length, allNodes_length_eq_keys_length,
    ← List.toFinset_card_of_nodup h2, ← List.toFinset_card_of_nodup hnd, h1]
  have hc := Finset.card_sdiff_add_card batches.flatten.toFinset r.keys.toFinset
  rw [Finset.union_comm] at hc
  omega

/-- The empty registry, used as a concrete witness input. -/
def r0 : Registry := { allNodes := [], discoveryQueue := [] }

/-- The witness batch sequence: five announcements, three distinct endpoints. -/
def bs0 : List (List Endpoint) := [["a", "b", "a"], ["b", "c"]]

/-- C7 witness: starting from the empty registry (trivially deduplicated),
submitting batches ["a","b","a"] and ["b","c"] grows the node count by the
number of distinct new endpoints. -/
theorem registry_dedup_count_witness :
    Registry.keys r0 = [] ∧
    (addBatches r0 bs0).allNodes.length =
      r0.allNodes.length + (bs0.flatten.toFinset \ r0.keys.toFinset).card :=
  ⟨rfl, registry_dedup_count r0 bs0 (by simp [r0, Registry.keys])⟩

/-! ### GUI update, positive-only recording (C9) -/

lemma updateDataListF_fst (l mirror : List Int) (v : Int) (limit : Nat)
    (hv : v ≠ 0) :
    (updateDataListF l v mirror limit).1 =
      if limit < (l ++ [v]).length then (l ++ [v]).tail else l ++ [v] := by
  unfold updateDataListF
  rw [if_neg hv]

lemma updateDataListF_getLast (l mirror : List Int) (v : Int) (limit : Nat)
    (hv : v ≠ 0) (hl : 0 < limit) :
    (updateDataListF l v mirror limit).1.getLast? = some v := by
  rw [updateDataListF_fst l mirror v limit hv]
  by_cases hlen : limit < (l ++ [v]).length
  · rw [if_pos hlen]
    cases l with
    | nil => simp at hlen; omega
    | cons a t =>
        show (t ++ [v]).getLast? = some v
        exact List.getLast?_concat t
  · rw [if_neg hlen]
    exact List.getLast?_concat l

lemma Queue.add_list (q : Queue) (v : Int) :
    (q.add v).list =
      if q.size < (q.list ++ [v]).length then (q.list ++ [v]).tail
      else q.list ++ [v] := rfl

lemma Queue.addFloat_list (q : Queue) (v : Int) :
    (q.addFloat v).list = (q.add v).list := rfl

lemma Queue.addFloat_getLast (q : Queue) (v : Int) (h : 0 < q.size) :
    (q.addFloat v).list.getLast? = some v := by
  rw [Queue.addFloat_list, Queue.add_list]
  by_cases hlen : q.size < (q.list ++ [v]).length
  · rw [if_pos hlen]
    cases hq : q.list with
    | nil => rw [hq] at hlen; simp at hlen; omega
    | cons a t =>
        show (t ++ [v]).getLast? = some v
        exact List.getLast?_concat t
  · rw [if_neg hlen]
    exact List.getLast?_concat q.list

set_option maxHeartbeats 2000000 in
lemma GUI.update_eq (g : GUI) (d : IncomingData) :
    g.update d = { g with
      infoConnections :=
        if 0 < d.connections then d.connections else g.infoConnections
      dataConnectionsList :=
        if 0 < d.connections then
          (updateDataListF g.dataConnectionsList d.connections
            g.dataConnections lenConnChart).1
        else g.dataConnectionsList
      dataConnections :=
        if 0 < d.connections then
          (updateDataListF g.dataConnectionsList d.connections
            g.dataConnections lenConnChart).2
        else g.dataConnections
      dataNodesTotal :=
        if 0 < d.nodesTotal then g.dataNodesTotal.addFloat d.nodesTotal
        else g.dataNodesTotal
      infoNodesQueued :=
        if 0 < d.nodesQueued then d.nodesQueued else g.infoNodesQueued
      dataNodesQueuedList :=
        if 0 < d.nodesQueued then
          (updateDataListF g.dataNodesQueuedList d.nodesQueued
            g.dataNodesQueued lenNodesChart).1
        else g.dataNodesQueuedList
      dataNodesQueued :=
        if 0 < d.nodesQueued then
          (updateDataListF g.dataNodesQueuedList d.nodesQueued
            g.dataNodesQueued lenNodesChart).2
        else g.dataNodesQueued
      infoNodesGood :=
        if 0 < d.nodesGood then d.nodesGood else g.infoNodesGood
      dataNodesGoodList :=
        if 0 < d.nodesGood then
          (updateDataListF g.dataNodesGoodList d.nodesGood
            g.dataNodesGood lenNodesChart).1
        else g.dataNodesGoodList
      dataNodesGood :=
        if 0 < d.nodesGood then
          (updateDataListF g.dataNodesGoodList d.nodesGood
            g.dataNodesGood lenNodesChart).2
        else g.dataNodesGood
      infoNodesDead :=
        if 0 < d.nodesDead then d.nodesDead else g.infoNodesDead
      dataNodesDeadList :=
        if 0 < d.nodesDead then
          (updateDataListF g.dataNodesDeadList d.nodesDead
            g.dataNodesDead lenNodesChart).1
        else g.dataNodesDeadList
      dataNodesDead :=
        if 0 < d.nodesDead then
          (updateDataListF g.dataNodesDeadList d.nodesDead
            g.dataNodesDead lenNodesChart).2
        else g.dataNodesDead
      infoMsgIn := if 0 < d.msgIn then d.msgIn else g.infoMsgIn
      infoMsgOut := if 0 < d.msgOut then d.msgOut else g.infoMsgOut } := by
  unfold GUI.update
  split_ifs <;> rfl

/-- C9 (implicit behaviour made explicit): `GUI.Update` records only strictly
positive incoming fields.  For each field, a zero or negative value leaves the
corresponding stored info field and its chart series (linked list and mirror
slice, or the total-nodes queue) unchanged; a strictly positive value is
stored in the info field and pushed to the end of the chart series.  In
particular a count that genuinely drops to zero is never reflected. -/
theorem gui_update_positive_only (g : GUI) (d : IncomingData) :
    (d.connections ≤ 0 →
      (g.update d).infoConnections = g.infoConnections ∧
      (g.update d).dataConnectionsList = g.dataConnectionsList ∧
      (g.update d).dataConnections = g.dataConnections) ∧
    (0 < d.connections →
      (g.update d).infoConnections = d.connections ∧
      (g.update d).dataConnectionsList.getLast? = some d.connections) ∧
    (d.nodesTotal ≤ 0 → (g.update d).dataNodesTotal = g.dataNodesTotal) ∧
    (0 < d.nodesTotal → 0 < g.dataNodesTotal.size →
      (g.update d).dataNodesTotal.list.getLast? = some d.nodesTotal) ∧
    (d.nodesQueued ≤ 0 →
      (g.update d).infoNodesQueued = g.infoNodesQueued ∧
      (g.update d).dataNodesQueuedList = g.dataNodesQueuedList ∧
      (g.update d).dataNodesQueued = g.dataNodesQueued) ∧
    (0 < d.nodesQueued →
      (g.update d).infoNodesQueued = d.nodesQueued ∧
      (g.update d).dataNodesQueuedList.getLast? = some d.nodesQueued) ∧
    (d.nodesGood ≤ 0 →
      (g.update d).infoNodesGood = g.infoNodesGood ∧
      (g.update d).dataNodesGoodList = g.dataNodesGoodList ∧
      (g.update d).dataNodesGood = g.dataNodesGood) ∧
    (0 < d.nodesGood →
      (g.update d).infoNodesGood = d.nodesGood ∧
      (g.update d).dataNodesGoodList.getLast? = some d.nodesGood) ∧
    (d.nodesDead ≤ 0 →
      (g.update d).infoNodesDead = g.infoNodesDead ∧
      (g.update d).dataNodesDeadList = g.dataNodesDeadList ∧
      (g.update d).dataNodesDead = g.dataNodesDead) ∧
    (0 < d.nodesDead →
      (g.update d).infoNodesDead = d.nodesDead ∧
      (g.update d).dataNodesDeadList.getLast? = some d.nodesDead) ∧
    (d.msgIn ≤ 0 → (g.update d).infoMsgIn = g.infoMsgIn) ∧
    (0 < d.msgIn → (g.update d).infoMsgIn = d.msgIn) ∧
    (d.msgOut ≤ 0 → (g.update d).infoMsgOut = g.infoMsgOut) ∧
    (0 < d.msgOut → (g.update d).infoMsgOut = d.msgOut) := by
  rw [GUI.update_eq]
  refine ⟨?_, ?_, ?_, ?_, ?_, ?_, ?_, ?_, ?_, ?_, ?_, ?_, ?_, ?_⟩
  · intro h
    have h' : ¬ 0 < d.connections := by omega
    refine ⟨?_, ?_, ?_⟩ <;> simp [h']
  · intro h
    refine ⟨by simp [h], ?_⟩
    simp only [if_pos h]
    exact updateDataListF_getLast g.dataConnectionsList g.dataConnections
      d.connections lenConnChart (by omega) (by decide)
  · intro h
    have h' : ¬ 0 < d.nodesTotal := by omega
    simp [h']
  · intro h hsz
    simp only [if_pos h]
    exact Queue.addFloat_getLast g.dataNodesTotal d.nodesTotal hsz
  · intro h
    have h' : ¬ 0 < d.nodesQueued := by omega
    refine ⟨?_, ?_, ?_⟩ <;> simp [h']
  · intro h
    refine ⟨by simp [h], ?_⟩
    simp only [if_pos h]
    exact updateDataListF_getLast g.dataNodesQueuedList g.dataNodesQueued
      d.nodesQueued lenNodesChart (by omega) (by decide)
  · intro h
    have h' : ¬ 0 < d.nodesGood := by omega
    refine ⟨?_, ?_, ?_⟩ <;> simp [h']
  · intro h
    refine ⟨by simp [h], ?_⟩
    simp only [if_pos h]
    exact updateDataListF_getLast g.dataNodesGoodList g.dataNodesGood
      d.nodesGood lenNodesChart (by omega) (by decide)
  · intro h
    have h' : ¬ 0 < d.nodesDead := by omega
    refine ⟨?_, ?_, ?_⟩ <;> simp [h']
  · intro h
    refine ⟨by simp [h], ?_⟩
    simp only [if_pos h]
    exact updateDataListF_getLast g.dataNodesDeadList g.dataNodesDead
      d.nodesDead lenNodesChart (by omega) (by decide)
  · intro h
    have h' : ¬ 0 < d.msgIn := by omega
    simp [h']
  · intro h
    simp [h]
  · intro h
    have h' : ¬ 0 < d.msgOut := by omega
    simp [h']
  · intro h
    simp [h]

/-- A concrete snapshot mixing positive, zero and negative fields:
connections 5, total 10, good 0, dead -3, queued 2, msgIn 0, msgOut 7. -/
def guiD0 : IncomingData :=
  { connections := 5, nodesTotal := 10, nodesGood := 0, nodesDead := -3
    nodesQueued := 2, msgIn := 0, msgOut := 7 }

/-- C9 witness: on a fresh GUI, the mixed snapshot records exactly its
strictly positive fields and leaves the zero / negative ones untouched. -/
theorem gui_update_positive_only_witness :
    ((GUI.new 50).update guiD0).infoConnections = 5 ∧
    ((GUI.new 50).update guiD0).dataNodesTotal.list.getLast? = some 10 ∧
    ((GUI.new 50).update guiD0).infoNodesGood = (GUI.new 50).infoNodesGood ∧
    ((GUI.new 50).update guiD0).infoNodesDead = (GUI.new 50).infoNodesDead ∧
    ((GUI.new 50).update guiD0).infoNodesQueued = 2 ∧
    ((GUI.new 50).update guiD0).infoMsgIn = (GUI.new 50).infoMsgIn ∧
    ((GUI.new 50).update guiD0).infoMsgOut = 7 := by
  have H := gui_update_positive_only (GUI.new 50) guiD0
  exact ⟨(H.2.1 (by decide)).1,
         H.2.2.2.1 (by decide) (by decide),
         (H.2.2.2.2.2.2.1 (by decide)).1,
         (H.2.2.2.2.2.2.2.2.1 (by decide)).1,
         (H.2.2.2.2.2.1 (by decide)).1,
         H.2.2.2.2.2.2.2.2.2.2.1 (by decide),
         H.2.2.2.2.2.2.2.2.2.2.2.2.2 (by decide)⟩

end GoBtcPeers
